import Mathlib

/-!
Verification of the disk-manager component of mini-rdbms
(src/src/disk_manager.rs), shallowly embedded in Lean 4.

Modelling conventions:
- Bytes are `Nat`; the backing heap file is a `List Nat` of bytes plus an
  explicit cursor position, mirroring the operating-system file handle on
  which the Rust code performs `seek` / `read_exact` / `write_all`.
- Machine integers (`u64` in the source) are `Nat` with an explicit
  `% 2 ^ 64` wherever the Rust arithmetic can overflow; Rust release-mode
  semantics (two-complement wrapping) is modelled.  This matters in two
  places: the counter increment `self.next_page_id += 1` and the offset
  computation `PAGE_SIZE as u64 * page_id.to_u64()`.
- Environmental failures that depend only on the modelled state (a short
  read at end of file) are represented exactly; failures that depend on
  the outside world (open/create failure, metadata-query failure, disk
  full) enter the model as explicit `Except` parameters where a claim
  needs them.
-/

set_option maxRecDepth 2000

/-- Fixed page size, `const PAGE_SIZE: usize = 4096` in the source. -/
def PAGE_SIZE : Nat := 4096

/-- One past the largest value representable in a `u64`. -/
def U64_LIMIT : Nat := 2 ^ 64

/-- Model of `std::io::Error` as it is distinguishable at this layer:
`unexpectedEof` is the error `read_exact` produces on a short read; `other`
stands for any other operating-system failure (open, create, metadata). -/
inductive IOError where
  | unexpectedEof
  | other
  deriving DecidableEq, Repr

/-- Model of the open heap file: its byte contents and the current cursor
position of the file handle. -/
structure HeapFile where
  data : List Nat
  cursor : Nat
  deriving DecidableEq, Repr

/-- Model of `Seek::seek(SeekFrom::Start(offset))`: position the cursor at
an absolute offset.  Seeking to any absolute offset succeeds, including
offsets beyond the current end of file. -/
def HeapFile.seekFromStart (f : HeapFile) (offset : Nat) : HeapFile :=
  { f with cursor := offset }

/-- Model of `Read::read_exact` into a buffer of length `len`: succeeds
returning exactly `len` bytes from the cursor when that many are available,
and fails with `unexpectedEof` otherwise (consuming the bytes up to end of
file).  A zero-length buffer succeeds without touching the file. -/
def HeapFile.readExact (f : HeapFile) (len : Nat) : Except IOError (List Nat) × HeapFile :=
  if len = 0 then
    (Except.ok [], f)
  else if f.cursor + len ≤ f.data.length then
    (Except.ok ((f.data.drop f.cursor).take len), { f with cursor := f.cursor + len })
  else
    (Except.error IOError.unexpectedEof, { f with cursor := max f.cursor f.data.length })

/-- Model of `Write::write_all`: writes the whole buffer at the cursor,
zero-filling the gap when the cursor lies beyond the current end of file
(sparse extension), and preserving every byte outside the written range. -/
def HeapFile.writeAll (f : HeapFile) (buf : List Nat) : Except IOError Unit × HeapFile :=
  (Except.ok (),
   { data := (f.data.take f.cursor ++ List.replicate (f.cursor - f.data.length) 0 ++ buf)
       ++ f.data.drop (f.cursor + buf.length),
     cursor := f.cursor + buf.length })

/-- `pub struct PageID(pub u64)` from the source. -/
structure PageID where
  val : Nat
  deriving DecidableEq, Repr

/-- `PageID::to_u64`. -/
def PageID.to_u64 (p : PageID) : Nat := p.val

/-- `pub struct DiskManager` from the source: the heap file handle and the
next page identifier to hand out. -/
structure DiskManager where
  heap_file : HeapFile
  next_page_id : Nat
  deriving DecidableEq, Repr

/-- `DiskManager::new`: open (or create) the heap file, query its length
through the metadata, and derive `next_page_id = file_size / PAGE_SIZE`.
The two fallible interactions with the operating system (the
`OpenOptions::open` call, which asks for read and write access and creation
when absent, and the `metadata` query) enter as `Except` parameters; the
`?` operator of the source is the `Except` bind. -/
def DiskManager.new (openResult : Except IOError HeapFile)
    (metaResult : Except IOError Nat) : Except IOError DiskManager := do
  let heap_file ← openResult
  let file_size ← metaResult
  pure { heap_file := heap_file, next_page_id := file_size / PAGE_SIZE }

/-- `DiskManager::new` in the honest environment: the file opens with the
given contents, the cursor at 0, and the metadata reports the true length. -/
def DiskManager.newFromFile (contents : List Nat) : DiskManager :=
  { heap_file := { data := contents, cursor := 0 },
    next_page_id := contents.length / PAGE_SIZE }

/-- `DiskManager::allocate_page`: return the current counter value and
increment the counter.  The increment is the Rust release-mode `u64`
increment, which wraps modulo `2 ^ 64`. -/
def DiskManager.allocate_page (d : DiskManager) : PageID × DiskManager :=
  let page_id := d.next_page_id
  (⟨page_id⟩, { d with next_page_id := (page_id + 1) % U64_LIMIT })

/-- The byte offset computed by `read` and `write`:
`PAGE_SIZE as u64 * page_id.to_u64()`, a `u64` multiplication that wraps
modulo `2 ^ 64` in release mode. -/
def pageOffset (page_id : PageID) : Nat :=
  (PAGE_SIZE * page_id.to_u64) % U64_LIMIT

/-- `DiskManager::read`: seek to the page offset, then `read_exact` into a
caller buffer of length `bufLen` (the source passes `&mut [u8]` and reads
exactly its length; no length validation is performed). -/
def DiskManager.read (d : DiskManager) (page_id : PageID) (bufLen : Nat) :
    Except IOError (List Nat) × DiskManager :=
  let r := (d.heap_file.seekFromStart (pageOffset page_id)).readExact bufLen
  (r.1, { d with heap_file := r.2 })

/-- `DiskManager::write`: seek to the page offset, then `write_all` the
caller buffer (the source passes `&[u8]` and writes exactly its length;
no length validation is performed). -/
def DiskManager.write (d : DiskManager) (page_id : PageID) (buf : List Nat) :
    Except IOError Unit × DiskManager :=
  let r := (d.heap_file.seekFromStart (pageOffset page_id)).writeAll buf
  (r.1, { d with heap_file := r.2 })

/-- Run `n` successive `allocate_page` calls, collecting the returned
identifiers in call order. -/
def DiskManager.allocatePages : Nat → DiskManager → List Nat × DiskManager
  | 0, d => ([], d)
  | Nat.succ m, d =>
    let r := d.allocate_page
    let rest := DiskManager.allocatePages m r.2
    (r.1.to_u64 :: rest.1, rest.2)

/-! ## Basic facts about the heap-file model -/

lemma seekFromStart_cursor (f : HeapFile) (off : Nat) : (f.seekFromStart off).cursor = off :=
  rfl

lemma seekFromStart_data (f : HeapFile) (off : Nat) : (f.seekFromStart off).data = f.data :=
  rfl

lemma newFromFile_data (c : List Nat) : (DiskManager.newFromFile c).heap_file.data = c :=
  rfl

lemma read_fst_eq (d : DiskManager) (p : PageID) (n : Nat) :
    (d.read p n).1 = ((d.heap_file.seekFromStart (pageOffset p)).readExact n).1 :=
  rfl

lemma write_snd_data (d : DiskManager) (p : PageID) (buf : List Nat) :
    (d.write p buf).2.heap_file.data
      = ((d.heap_file.seekFromStart (pageOffset p)).writeAll buf).2.data :=
  rfl

lemma HeapFile.writeAll_data (f : HeapFile) (buf : List Nat) :
    (f.writeAll buf).2.data =
      (f.data.take f.cursor ++ List.replicate (f.cursor - f.data.length) 0)
        ++ (buf ++ f.data.drop (f.cursor + buf.length)) := by
  simp [HeapFile.writeAll, List.append_assoc]

lemma writeAll_prefix_length (s : List Nat) (off : Nat) :
    (s.take off ++ List.replicate (off - s.length) 0).length = off := by
  simp [List.length_take, List.length_replicate]
  omega

lemma HeapFile.writeAll_data_length (f : HeapFile) (buf : List Nat) :
    (f.writeAll buf).2.data.length = max (f.cursor + buf.length) f.data.length := by
  simp [HeapFile.writeAll]
  omega

lemma writeAll_drop_cursor (f : HeapFile) (buf : List Nat) :
    (f.writeAll buf).2.data.drop f.cursor = buf ++ f.data.drop (f.cursor + buf.length) := by
  rw [HeapFile.writeAll_data]
  exact List.drop_left' (writeAll_prefix_length f.data f.cursor)

lemma seekFromStart_data_eq (f g : HeapFile) (off : Nat) (h : f.data = g.data) :
    f.seekFromStart off = g.seekFromStart off := by
  cases f; cases g
  simp [HeapFile.seekFromStart] at h ⊢
  exact h

lemma readExact_of_le (f : HeapFile) (len : Nat) (h0 : len ≠ 0)
    (h : f.cursor + len ≤ f.data.length) :
    f.readExact len
      = (Except.ok ((f.data.drop f.cursor).take len), { f with cursor := f.cursor + len }) := by
  simp [HeapFile.readExact, h0, h]

lemma readExact_writeAll (f : HeapFile) (off : Nat) (c : List Nat) :
    ((((f.seekFromStart off).writeAll c).2.seekFromStart off).readExact c.length).1
      = Except.ok c := by
  by_cases hc : c.length = 0
  · have hnil : c = [] := List.length_eq_zero.mp hc
    subst hnil
    simp [HeapFile.readExact]
  · have hle : (((f.seekFromStart off).writeAll c).2.seekFromStart off).cursor + c.length
        ≤ (((f.seekFromStart off).writeAll c).2.seekFromStart off).data.length := by
      show off + c.length ≤ ((f.seekFromStart off).writeAll c).2.data.length
      rw [HeapFile.writeAll_data_length]
      exact le_max_left _ _
    rw [readExact_of_le _ _ hc hle]
    have hdrop : ((f.seekFromStart off).writeAll c).2.data.drop off
        = c ++ f.data.drop (off + c.length) :=
      writeAll_drop_cursor (f.seekFromStart off) c
    show Except.ok ((((f.seekFromStart off).writeAll c).2.data.drop off).take c.length)
        = Except.ok c
    rw [hdrop]
    exact congrArg Except.ok (List.take_left' rfl)

lemma read_fst_congr (d e : DiskManager) (p : PageID) (n : Nat)
    (h : d.heap_file.data = e.heap_file.data) :
    (d.read p n).1 = (e.read p n).1 := by
  show ((d.heap_file.seekFromStart (pageOffset p)).readExact n).1
      = ((e.heap_file.seekFromStart (pageOffset p)).readExact n).1
  rw [seekFromStart_data_eq d.heap_file e.heap_file (pageOffset p) h]

/-! ## C1: write then read round-trips, on the same or a reopened store -/

/-- C1: for every page identifier `p` and every buffer `c` of exactly
`PAGE_SIZE` bytes, writing `c` to page `p` and then reading page `p` into a
`PAGE_SIZE` buffer returns exactly `c` — both on the same store instance and
on a fresh instance reopened against the same backing contents. -/
theorem write_read_roundtrip (d : DiskManager) (p : Nat) (c : List Nat)
    (hc : c.length = PAGE_SIZE) :
    (((d.write ⟨p⟩ c).2).read ⟨p⟩ PAGE_SIZE).1 = Except.ok c ∧
      ((DiskManager.newFromFile ((d.write ⟨p⟩ c).2).heap_file.data).read ⟨p⟩ PAGE_SIZE).1
        = Except.ok c := by
  have hsame : (((d.write ⟨p⟩ c).2).read ⟨p⟩ PAGE_SIZE).1 = Except.ok c := by
    show ((((d.heap_file.seekFromStart (pageOffset ⟨p⟩)).writeAll c).2.seekFromStart
        (pageOffset ⟨p⟩)).readExact PAGE_SIZE).1 = Except.ok c
    rw [← hc]
    exact readExact_writeAll d.heap_file (pageOffset ⟨p⟩) c
  refine ⟨hsame, ?_⟩
  rw [read_fst_congr (DiskManager.newFromFile ((d.write ⟨p⟩ c).2).heap_file.data)
    ((d.write ⟨p⟩ c).2) ⟨p⟩ PAGE_SIZE rfl]
  exact hsame

/-- Witness for C1 at a concrete store and buffer. -/
theorem write_read_roundtrip_witness :
    (((DiskManager.newFromFile []).write ⟨0⟩ (List.replicate 4096 7)).2.read ⟨0⟩ PAGE_SIZE).1
      = Except.ok (List.replicate 4096 7) := by
  exact (write_read_roundtrip (DiskManager.newFromFile []) 0 (List.replicate 4096 7)
    (by simp only [List.length_replicate, PAGE_SIZE])).1

/-! ## C3: the counter is recovered from the backing-storage length -/

/-- C3: opening a store against backing contents of length `L` yields
`next_page_id = L / PAGE_SIZE` with truncating division, the next
`allocate_page` call returns exactly that value, and that value collides
with no fully-written existing page (any `q` with
`q * PAGE_SIZE + PAGE_SIZE ≤ L`). -/
theorem new_next_page_id_from_length (contents : List Nat) :
    (DiskManager.newFromFile contents).next_page_id = contents.length / PAGE_SIZE ∧
      ((DiskManager.newFromFile contents).allocate_page).1.to_u64
        = contents.length / PAGE_SIZE ∧
      ∀ q : Nat, q * PAGE_SIZE + PAGE_SIZE ≤ contents.length →
        ((DiskManager.newFromFile contents).allocate_page).1.to_u64 ≠ q := by
  refine ⟨rfl, rfl, ?_⟩
  intro q hq h
  have h' : contents.length / PAGE_SIZE = q := h
  simp only [PAGE_SIZE] at hq h'
  omega

/-- Witness for C3 on a backing storage of 4097 bytes: the partial trailing
page is dropped, the counter is 1, and the first allocation does not
collide with the fully-written page 0. -/
theorem new_next_page_id_from_length_witness :
    (DiskManager.newFromFile (List.replicate 4097 0)).next_page_id = 1 ∧
      ((DiskManager.newFromFile (List.replicate 4097 0)).allocate_page).1.to_u64 ≠ 0 := by
  have h := new_next_page_id_from_length (List.replicate 4097 0)
  refine ⟨?_, h.2.2 0 (by simp only [List.length_replicate]; decide)⟩
  rw [h.1]
  simp only [List.length_replicate]
  decide

/-! ## C8: allocate_page is total -/

/-- C8: `allocate_page` is a total function — it returns the current counter
as the identifier and advances the counter for every store state, with no
error case in its type.  The counter advance is the release-mode `u64`
increment, so at the maximum representable value `2 ^ 64 - 1` the call still
returns that identifier and the counter wraps to 0. -/
theorem allocate_page_total (d : DiskManager) :
    (d.allocate_page).1.to_u64 = d.next_page_id ∧
      (d.allocate_page).2.next_page_id = (d.next_page_id + 1) % U64_LIMIT ∧
      (d.next_page_id = U64_LIMIT - 1 → (d.allocate_page).2.next_page_id = 0) := by
  refine ⟨rfl, rfl, ?_⟩
  intro h
  show (d.next_page_id + 1) % U64_LIMIT = 0
  rw [h]
  norm_num [U64_LIMIT]

/-- Witness for C8 at a store whose counter holds the maximum `u64` value. -/
theorem allocate_page_total_witness :
    ((DiskManager.mk ⟨[], 0⟩ (U64_LIMIT - 1)).allocate_page).1.to_u64 = U64_LIMIT - 1 ∧
      ((DiskManager.mk ⟨[], 0⟩ (U64_LIMIT - 1)).allocate_page).2.next_page_id = 0 := by
  have h := allocate_page_total (DiskManager.mk ⟨[], 0⟩ (U64_LIMIT - 1))
  exact ⟨h.1, h.2.2 rfl⟩

/-! ## C9: open fails exactly when the environment fails -/

/-- C9: `DiskManager::new` yields an `IOError` (and no store instance)
exactly when the open/create step or the metadata query fails, and on
success yields the store whose counter is the reported length divided by
`PAGE_SIZE`.  The open mode itself (read, write, create-if-absent) is the
`OpenOptions` configuration visible at lines 34 to 38 of the source. -/
theorem new_error_iff (o : Except IOError HeapFile) (m : Except IOError Nat) :
    ((∃ e, DiskManager.new o m = Except.error e) ↔
      (∃ e, o = Except.error e) ∨ (∃ e, m = Except.error e)) ∧
      (∀ f L, o = Except.ok f → m = Except.ok L →
        DiskManager.new o m
          = Except.ok { heap_file := f, next_page_id := L / PAGE_SIZE }) := by
  cases o <;> cases m <;>
    simp [DiskManager.new, Except.bind, Bind.bind, pure, Except.pure]

/-- Witness for C9: an honest environment with an 8192-byte file yields a
store with counter 2, and a failing open propagates its error. -/
theorem new_error_iff_witness :
    DiskManager.new (Except.ok ⟨[], 0⟩) (Except.ok 8192)
      = Except.ok { heap_file := ⟨[], 0⟩, next_page_id := 2 } := by
  have h := (new_error_iff (Except.ok ⟨[], 0⟩) (Except.ok 8192)).2 ⟨[], 0⟩ 8192 rfl rfl
  simpa [PAGE_SIZE] using h

lemma readExact_short (f : HeapFile) (len : Nat) (h0 : len ≠ 0)
    (h : f.data.length < f.cursor + len) :
    (f.readExact len).1 = Except.error IOError.unexpectedEof := by
  unfold HeapFile.readExact
  rw [if_neg h0, if_neg (by omega)]

lemma readExact_data (f : HeapFile) (len : Nat) : (f.readExact len).2.data = f.data := by
  unfold HeapFile.readExact
  split
  · rfl
  · split
    · rfl
    · rfl

lemma writeAll_frame (f : HeapFile) (buf : List Nat) (i : Nat)
    (hi : i < f.data.length)
    (hout : i < f.cursor ∨ f.cursor + buf.length ≤ i) :
    (f.writeAll buf).2.data[i]? = f.data[i]? := by
  rw [HeapFile.writeAll_data]
  rcases hout with h | h
  · rw [List.getElem?_append_left (by rw [writeAll_prefix_length]; exact h)]
    rw [List.getElem?_append_left (by rw [List.length_take]; omega)]
    exact List.getElem?_take_of_lt h
  · rw [List.getElem?_append_right (by rw [writeAll_prefix_length]; omega)]
    rw [writeAll_prefix_length]
    rw [List.getElem?_append_right (by omega)]
    rw [List.getElem?_drop]
    congr 1
    omega

/-! ## C2: identifiers are handed out in order from a fresh store -/

lemma allocatePages_ids (n : Nat) :
    ∀ d : DiskManager, d.next_page_id < U64_LIMIT →
      (DiskManager.allocatePages n d).1
        = (List.range n).map (fun i => (d.next_page_id + i) % U64_LIMIT) := by
  induction n with
  | zero =>
    intro d hd
    simp [DiskManager.allocatePages]
  | succ m ih =>
    intro d hd
    have hstep : (DiskManager.allocatePages (m + 1) d).1
        = d.next_page_id :: (DiskManager.allocatePages m (d.allocate_page).2).1 := rfl
    have h2 : (d.allocate_page).2.next_page_id = (d.next_page_id + 1) % U64_LIMIT := rfl
    have hlt : (d.allocate_page).2.next_page_id < U64_LIMIT := by
      rw [h2]
      exact Nat.mod_lt _ (by norm_num [U64_LIMIT])
    rw [hstep, ih _ hlt, List.range_succ_eq_map, List.map_cons, List.map_map]
    refine congrArg₂ List.cons ?_ ?_
    · rw [Nat.add_zero, Nat.mod_eq_of_lt hd]
    · refine List.map_congr_left ?_
      intro i _
      show ((d.allocate_page).2.next_page_id + i) % U64_LIMIT
          = (d.next_page_id + Nat.succ i) % U64_LIMIT
      rw [h2, Nat.mod_add_mod]
      congr 1
      omega

/-- C2 (amended): for every `n ≤ 2 ^ 64`, a sequence of `n` `allocate_page`
calls on a fresh store opened on an empty backing file returns exactly the
identifiers `0, 1, …, n-1` in call order, each exactly once.  Beyond
`2 ^ 64` calls the `u64` counter wraps and identifiers repeat. -/
theorem allocate_sequence_ids (n : Nat) (hn : n ≤ U64_LIMIT) :
    (DiskManager.allocatePages n (DiskManager.newFromFile [])).1 = List.range n ∧
      (DiskManager.allocatePages n (DiskManager.newFromFile [])).1.Nodup := by
  have h0 : (DiskManager.newFromFile []).next_page_id = 0 := rfl
  have h := allocatePages_ids n (DiskManager.newFromFile [])
    (by rw [h0]; norm_num [U64_LIMIT])
  rw [h0] at h
  have heq : (DiskManager.allocatePages n (DiskManager.newFromFile [])).1 = List.range n := by
    rw [h]
    have hpt : ∀ i ∈ List.range n, (0 + i) % U64_LIMIT = i := by
      intro i hi
      rw [Nat.zero_add, Nat.mod_eq_of_lt (lt_of_lt_of_le (List.mem_range.mp hi) hn)]
    rw [List.map_congr_left hpt, List.map_id']
  exact ⟨heq, heq ▸ List.nodup_range n⟩

/-- Witness for the amended C2 at three allocations. -/
theorem allocate_sequence_ids_witness :
    (DiskManager.allocatePages 3 (DiskManager.newFromFile [])).1 = List.range 3 ∧
      (DiskManager.allocatePages 3 (DiskManager.newFromFile [])).1.Nodup :=
  allocate_sequence_ids 3 (by norm_num [U64_LIMIT])

/-- C2 counterexample: after `2 ^ 64 + 1` allocations on a fresh store the
identifier 0 is returned both by the first call and by the call at position
`2 ^ 64` (the counter wraps), so the returned identifiers are not
`0, 1, …, n-1` each exactly once. -/
theorem allocate_sequence_wrap_cex :
    (DiskManager.allocatePages (U64_LIMIT + 1) (DiskManager.newFromFile [])).1[0]?
        = some 0 ∧
      (DiskManager.allocatePages (U64_LIMIT + 1) (DiskManager.newFromFile [])).1[U64_LIMIT]?
        = some 0 ∧
      (0 : Nat) ≠ U64_LIMIT := by
  have h0 : (DiskManager.newFromFile []).next_page_id = 0 := rfl
  have h := allocatePages_ids (U64_LIMIT + 1) (DiskManager.newFromFile [])
    (by rw [h0]; norm_num [U64_LIMIT])
  rw [h0] at h
  rw [h]
  refine ⟨?_, ?_, by norm_num [U64_LIMIT]⟩
  · rw [List.getElem?_map, List.getElem?_range (Nat.lt_succ_of_le (Nat.zero_le _))]
    show some ((0 + 0) % U64_LIMIT) = some 0
    norm_num
  · rw [List.getElem?_map, List.getElem?_range (Nat.lt_succ_self _)]
    show some ((0 + U64_LIMIT) % U64_LIMIT) = some 0
    rw [Nat.zero_add, Nat.mod_self]

/-! ## C7: allocate_page leaves the backing storage unchanged -/

/-- C7: every call to `allocate_page` leaves the backing storage entirely
unchanged — the byte contents, the length, and even the file cursor are
those of the state before the call; only the in-memory counter advances. -/
theorem allocate_page_frame (d : DiskManager) :
    (d.allocate_page).2.heap_file = d.heap_file ∧
      (d.allocate_page).2.heap_file.data = d.heap_file.data ∧
      (d.allocate_page).2.heap_file.data.length = d.heap_file.data.length := by
  exact ⟨rfl, rfl, rfl⟩

/-! ## C10: read and write never change the allocation counter -/

/-- C10: for every store state, page identifier and buffer, `read` and
`write` leave `next_page_id` unchanged, whether they succeed or fail. -/
theorem read_write_preserve_next_page_id (d : DiskManager) (p : PageID)
    (bufLen : Nat) (buf : List Nat) :
    (d.read p bufLen).2.next_page_id = d.next_page_id ∧
      (d.write p buf).2.next_page_id = d.next_page_id := by
  exact ⟨rfl, rfl⟩

/-! ## C4: there is no buffer-length validation in read or write -/

/-- C4 (amended): the code performs no buffer-length validation at all.
With a buffer whose length differs from `PAGE_SIZE`, `read` still succeeds
whenever that many bytes are available at the page offset and transfers
exactly the buffer length, and `write` succeeds and writes exactly the
buffer, the storage length becoming the maximum of offset plus buffer
length and the old length — mismatched lengths are accepted silently
rather than failing fast. -/
theorem no_length_validation (d : DiskManager) (p : PageID) (n : Nat)
    (buf : List Nat) (hn : n ≠ PAGE_SIZE) (hb : buf.length ≠ PAGE_SIZE)
    (h0 : n ≠ 0) (hfit : pageOffset p + n ≤ d.heap_file.data.length) :
    (d.read p n).1 = Except.ok ((d.heap_file.data.drop (pageOffset p)).take n) ∧
      (d.write p buf).1 = Except.ok () ∧
      (d.write p buf).2.heap_file.data.length
        = max (pageOffset p + buf.length) d.heap_file.data.length := by
  refine ⟨?_, rfl, ?_⟩
  · show ((d.heap_file.seekFromStart (pageOffset p)).readExact n).1
        = Except.ok ((d.heap_file.data.drop (pageOffset p)).take n)
    rw [readExact_of_le _ _ h0 hfit]
    rfl
  · show ((d.heap_file.seekFromStart (pageOffset p)).writeAll buf).2.data.length
        = max (pageOffset p + buf.length) d.heap_file.data.length
    rw [HeapFile.writeAll_data_length]
    rfl

/-- Witness for the amended C4: a 1-byte read and a 1-byte write are both
accepted on a 4096-byte storage. -/
theorem no_length_validation_witness :
    ((DiskManager.newFromFile (List.replicate 4096 5)).read ⟨0⟩ 1).1 = Except.ok [5] ∧
      ((DiskManager.newFromFile (List.replicate 4096 5)).write ⟨0⟩ [9]).1
        = Except.ok () := by
  have h := no_length_validation (DiskManager.newFromFile (List.replicate 4096 5)) ⟨0⟩ 1 [9]
    (by decide) (by decide) (by decide)
    (by
      show pageOffset ⟨0⟩ + 1 ≤ (List.replicate 4096 5).length
      simp only [List.length_replicate]
      decide)
  refine ⟨?_, h.2.1⟩
  rw [h.1]
  have hoff : pageOffset ⟨0⟩ = 0 := by decide
  rw [newFromFile_data, hoff, List.drop_zero]
  rfl

/-- C4 counterexample: calling `read` with a buffer of length 1 (not
`PAGE_SIZE`) does not fail fast — it succeeds, transferring a single byte. -/
theorem no_length_validation_cex :
    ((DiskManager.newFromFile (List.replicate 4096 5)).read ⟨0⟩ 1).1 = Except.ok [5] ∧
      (1 : Nat) ≠ PAGE_SIZE := by
  have hoff : pageOffset ⟨0⟩ = 0 := by decide
  refine ⟨?_, by decide⟩
  rw [read_fst_eq]
  rw [readExact_of_le _ _ (by decide)
    (by
      rw [seekFromStart_cursor, seekFromStart_data, newFromFile_data, hoff,
        List.length_replicate]
      decide)]
  rw [seekFromStart_data, seekFromStart_cursor, newFromFile_data, hoff, List.drop_zero]
  rfl

/-! ## C5: the offset formula and the write frame property -/

/-- C5 (amended): for every page identifier `p` whose mathematical offset
`p * PAGE_SIZE` fits in a `u64`, read and write touch exactly the byte
range starting at `p * PAGE_SIZE`: the computed offset equals
`p * PAGE_SIZE`, writing a `PAGE_SIZE` buffer `c` places exactly `c` there,
every previously existing byte outside that range keeps its value, and a
read changes no stored byte.  For `p ≥ 2 ^ 52` the `u64` multiplication in
the source wraps modulo `2 ^ 64` and a different offset is touched. -/
theorem offset_formula_frame (d : DiskManager) (p : Nat) (c : List Nat) (i : Nat)
    (hp : p * PAGE_SIZE < U64_LIMIT) (hc : c.length = PAGE_SIZE)
    (hi : i < d.heap_file.data.length)
    (hout : i < p * PAGE_SIZE ∨ p * PAGE_SIZE + PAGE_SIZE ≤ i) :
    pageOffset ⟨p⟩ = p * PAGE_SIZE ∧
      ((d.write ⟨p⟩ c).2.heap_file.data.drop (p * PAGE_SIZE)).take PAGE_SIZE = c ∧
      (d.write ⟨p⟩ c).2.heap_file.data[i]? = d.heap_file.data[i]? ∧
      (d.read ⟨p⟩ PAGE_SIZE).2.heap_file.data = d.heap_file.data := by
  have hoff : pageOffset ⟨p⟩ = p * PAGE_SIZE := by
    show (PAGE_SIZE * p) % U64_LIMIT = p * PAGE_SIZE
    rw [Nat.mul_comm]
    exact Nat.mod_eq_of_lt hp
  refine ⟨hoff, ?_, ?_, ?_⟩
  · have hdrop : ((d.heap_file.seekFromStart (pageOffset ⟨p⟩)).writeAll c).2.data.drop
        (pageOffset ⟨p⟩) = c ++ d.heap_file.data.drop (pageOffset ⟨p⟩ + c.length) :=
      writeAll_drop_cursor (d.heap_file.seekFromStart (pageOffset ⟨p⟩)) c
    show (((d.heap_file.seekFromStart (pageOffset ⟨p⟩)).writeAll c).2.data.drop
        (p * PAGE_SIZE)).take PAGE_SIZE = c
    rw [← hoff, hdrop]
    exact List.take_left' hc
  · have hout' : i < (d.heap_file.seekFromStart (pageOffset ⟨p⟩)).cursor ∨
        (d.heap_file.seekFromStart (pageOffset ⟨p⟩)).cursor + c.length ≤ i := by
      show i < pageOffset ⟨p⟩ ∨ pageOffset ⟨p⟩ + c.length ≤ i
      rw [hoff, hc]
      exact hout
    exact writeAll_frame (d.heap_file.seekFromStart (pageOffset ⟨p⟩)) c i hi hout'
  · show ((d.heap_file.seekFromStart (pageOffset ⟨p⟩)).readExact PAGE_SIZE).2.data
        = d.heap_file.data
    exact readExact_data _ _

/-- Witness for the amended C5: writing page 1 of a two-page storage keeps
byte 0 intact and places the buffer exactly at offset 4096. -/
theorem offset_formula_frame_witness :
    pageOffset ⟨1⟩ = 1 * PAGE_SIZE ∧
      (((DiskManager.newFromFile (List.replicate 8192 3)).write ⟨1⟩
          (List.replicate 4096 9)).2.heap_file.data.drop (1 * PAGE_SIZE)).take PAGE_SIZE
        = List.replicate 4096 9 ∧
      ((DiskManager.newFromFile (List.replicate 8192 3)).write ⟨1⟩
          (List.replicate 4096 9)).2.heap_file.data[0]?
        = (DiskManager.newFromFile (List.replicate 8192 3)).heap_file.data[0]? ∧
      ((DiskManager.newFromFile (List.replicate 8192 3)).read
          ⟨1⟩ PAGE_SIZE).2.heap_file.data
        = (DiskManager.newFromFile (List.replicate 8192 3)).heap_file.data :=
  offset_formula_frame (DiskManager.newFromFile (List.replicate 8192 3)) 1
    (List.replicate 4096 9) 0 (by decide)
    (by simp only [List.length_replicate, PAGE_SIZE])
    (by
      show 0 < (List.replicate 8192 3).length
      simp only [List.length_replicate]
      decide)
    (Or.inl (by decide))

/-- C5 counterexample: for `p = 2 ^ 52` the `u64` offset computation wraps
to 0, so writing page `2 ^ 52` overwrites byte 0 of the storage — a byte
far outside the range starting at `2 ^ 52 * PAGE_SIZE` that the claim says
is the only one touched. -/
theorem offset_formula_wrap_cex :
    pageOffset ⟨2 ^ 52⟩ = 0 ∧
      ((DiskManager.newFromFile (List.replicate 4096 1)).write ⟨2 ^ 52⟩
          (List.replicate 4096 0)).2.heap_file.data[0]? = some 0 ∧
      (DiskManager.newFromFile (List.replicate 4096 1)).heap_file.data[0]? = some 1 ∧
      (0 : Nat) < 2 ^ 52 * PAGE_SIZE := by
  have hoff : pageOffset ⟨2 ^ 52⟩ = 0 := by decide
  refine ⟨hoff, ?_, ?_, by decide⟩
  · rw [write_snd_data, HeapFile.writeAll_data]
    rw [List.getElem?_append_right
      (by rw [writeAll_prefix_length, seekFromStart_cursor, hoff])]
    rw [writeAll_prefix_length, seekFromStart_cursor, hoff, Nat.sub_self]
    rw [List.getElem?_append_left (by rw [List.length_replicate]; decide)]
    rw [List.getElem?_replicate_of_lt (by decide)]
  · rw [newFromFile_data]
    rw [List.getElem?_replicate_of_lt (by decide)]

/-! ## C6: a read past the end of the storage fails -/

/-- C6 (amended): for every page identifier `p` whose offset computation
does not overflow a `u64` (`p * PAGE_SIZE < 2 ^ 64`), if
`p * PAGE_SIZE + PAGE_SIZE` exceeds the current backing-storage length then
reading page `p` into a `PAGE_SIZE` buffer fails with the end-of-file
`IOError`, never succeeding with partial data.  For `p ≥ 2 ^ 52` the `u64`
offset wraps and the read is served from the wrapped offset instead. -/
theorem short_read_fails (d : DiskManager) (p : Nat)
    (hp : p * PAGE_SIZE < U64_LIMIT)
    (hshort : d.heap_file.data.length < p * PAGE_SIZE + PAGE_SIZE) :
    (d.read ⟨p⟩ PAGE_SIZE).1 = Except.error IOError.unexpectedEof := by
  have hoff : pageOffset ⟨p⟩ = p * PAGE_SIZE := by
    show (PAGE_SIZE * p) % U64_LIMIT = p * PAGE_SIZE
    rw [Nat.mul_comm]
    exact Nat.mod_eq_of_lt hp
  show ((d.heap_file.seekFromStart (pageOffset ⟨p⟩)).readExact PAGE_SIZE).1
      = Except.error IOError.unexpectedEof
  refine readExact_short _ _ (by decide) ?_
  show d.heap_file.data.length < pageOffset ⟨p⟩ + PAGE_SIZE
  rw [hoff]
  exact hshort

/-- Witness for the amended C6: reading the never-written page 0 of an
empty backing storage fails with the end-of-file error. -/
theorem short_read_fails_witness :
    ((DiskManager.newFromFile []).read ⟨0⟩ PAGE_SIZE).1
      = Except.error IOError.unexpectedEof :=
  short_read_fails (DiskManager.newFromFile []) 0 (by decide) (by decide)

/-- C6 counterexample: for `p = 2 ^ 52` on a 4096-byte storage the claimed
failure condition holds (`p * PAGE_SIZE + PAGE_SIZE` far exceeds the
length), yet the read succeeds, because the `u64` offset computation wraps
to 0 and the read is served from page 0. -/
theorem short_read_wrap_cex :
    ((DiskManager.newFromFile (List.replicate 4096 0)).read ⟨2 ^ 52⟩ PAGE_SIZE).1
      = Except.ok (List.replicate 4096 0) ∧
      (List.replicate (4096 : Nat) 0).length < 2 ^ 52 * PAGE_SIZE + PAGE_SIZE := by
  have hoff : pageOffset ⟨2 ^ 52⟩ = 0 := by decide
  constructor
  · rw [read_fst_eq]
    rw [readExact_of_le _ _ (by decide)
      (by
        rw [seekFromStart_cursor, seekFromStart_data, newFromFile_data, hoff,
          List.length_replicate]
        decide)]
    rw [seekFromStart_data, seekFromStart_cursor, newFromFile_data, hoff, List.drop_zero,
      List.take_replicate]
    have hmin : min PAGE_SIZE 4096 = 4096 := by decide
    rw [hmin]
  · simp only [List.length_replicate]
    decide
